import Mathlib

/-!
Shallow embedding of the SMChess puzzle-session engine
(`src/state_manager.py` and `src/chess_logic.py`).

The chess-rules capability (the python-chess library) is external to the
repository and is modelled as an abstract interface `ChessRules`: boards are
an arbitrary type `B`, and moves are identified by their canonical UCI
string (`move.uci()`), which is the only way the engine code inspects a
move.  Every state-changing Python method is embedded as a pure function
from the old state to the result together with the new state.
-/

/-- Embeds `MoveResult` from `src/chess_logic.py`. -/
inductive MoveResult where
  | SUCCESS
  | INVALID_MOVE
  | PUZZLE_SOLVED
  | WRONG_MOVE
deriving DecidableEq, Repr

/-- Embeds the frozen dataclass `PuzzleState` from `src/state_manager.py`:
`puzzle_id`, the UCI move history, and an optional `message_id`. -/
structure PuzzleState where
  puzzle_id : String
  moves_uci : List String
  message_id : Option Int
deriving DecidableEq, Repr

/-- Embeds `PuzzleState.__eq__`: equality on `(puzzle_id, moves_uci)` only;
`message_id` is excluded (as is the hash, which uses the same pair). -/
def PuzzleState.pyEq (a b : PuzzleState) : Bool :=
  a.puzzle_id == b.puzzle_id && a.moves_uci == b.moves_uci

/-- Embeds `StateManager`.  The Python `set` (with `PuzzleState.__eq__` /
`__hash__`) is modelled as a list without `pyEq`-duplicates, in insertion
order; `set.add` keeps the already-stored element when an equal one exists. -/
structure StateManager where
  states : List PuzzleState
  current_state : Option PuzzleState
deriving DecidableEq, Repr

/-- Embeds `StateManager.create_state`: builds the new `PuzzleState`, adds it
to the set (a no-op when a `pyEq`-equal state is already stored, in which case
the stored element and its `message_id` are kept), and returns the newly
constructed object. -/
def StateManager.create_state (sm : StateManager) (pid : String)
    (moves : List String) (mid : Option Int) : PuzzleState × StateManager :=
  let state : PuzzleState := ⟨pid, moves, mid⟩
  if sm.states.any (fun s => s.pyEq state) then (state, sm)
  else (state, { sm with states := sm.states ++ [state] })

/-- Embeds `StateManager.set_current_state`. -/
def StateManager.set_current_state (sm : StateManager) (s : PuzzleState) :
    StateManager :=
  { sm with current_state := some s }

/-- Embeds `StateManager.get_current_state`. -/
def StateManager.get_current_state (sm : StateManager) : Option PuzzleState :=
  sm.current_state

/-- Embeds `StateManager.get_state_count` (`len(self.states)`). -/
def StateManager.get_state_count (sm : StateManager) : Nat :=
  sm.states.length

/-- Interface of the external chess-rules capability (python-chess) as used
by `src/chess_logic.py`.  Moves are their UCI strings.
* `parse_san b s`: `board.parse_san(s)`; `none` models the caught
  `ValueError` / `InvalidMoveError` / `IllegalMoveError`; a returned move is
  legal on `b` by construction in python-chess.
* `from_uci s`: `chess.Move.from_uci(s)`, a purely syntactic parse; `none`
  models the raised error on malformed input.
* `is_legal b m`: `m in board.legal_moves`.
* `push b m`: `board.push(move)`, which python-chess documents as applying
  the move **without checking legality**.
* `san b m`: `board.san(move)` rendering.
* `pop` / `has_move_stack`: `board.pop()` and the truthiness of
  `board.move_stack` (the stack of moves pushed since construction).
* `mkBoard fen`: `chess.Board(fen)` with an empty move stack. -/
structure ChessRules (B : Type) where
  mkBoard : String → B
  parse_san : B → String → Option String
  from_uci : String → Option String
  is_legal : B → String → Bool
  push : B → String → B
  san : B → String → String
  is_checkmate : B → Bool
  is_stalemate : B → Bool
  pop : B → B
  has_move_stack : B → Bool

/-- Embeds the dataclass `GameState` from `src/chess_logic.py`. -/
structure GameState (B : Type) where
  board : B
  moves_uci : List String
  current_move_index : Nat
  is_player_turn : Bool
  puzzle_solved : Bool
deriving DecidableEq, Repr

/-- Embeds the `ChessLogic` instance attributes set in `__init__`. -/
structure ChessLogic (B : Type) where
  game_state : Option (GameState B)
  solution_moves : List String
  state_manager : Option StateManager
  puzzle_id : Option String
deriving DecidableEq, Repr

/-- Embeds `ChessLogic.__init__(state_manager)`. -/
def mkChessLogic {B : Type} (sm : Option StateManager) : ChessLogic B :=
  ⟨none, [], sm, none⟩

/-- Embeds `ChessLogic.initialize_puzzle` (renamed `init_puzzle` here):
fresh board from the FEN, empty history, cursor 0, player to move. -/
def ChessLogic.init_puzzle {B : Type} (R : ChessRules B) (L : ChessLogic B)
    (pid fen : String) (sol : List String) : ChessLogic B :=
  { L with
    solution_moves := sol
    puzzle_id := some pid
    game_state := some ⟨R.mkBoard fen, [], 0, true, false⟩ }

/-- Embeds the move-resolution block of `ChessLogic.play_move`: try SAN
first; on failure try UCI and null it out when the move is not legal.
(The falsy `chess.Move.null()` from `from_uci("0000")` is never legal, so
`if not move` coincides with `move is None`.) -/
def resolve_move {B : Type} (R : ChessRules B) (b : B) (s : String) :
    Option String :=
  match R.parse_san b s with
  | some m => some m
  | none =>
    match R.from_uci s with
    | some m => if R.is_legal b m then some m else none
    | none => none

/-- Embeds `ChessLogic.play_move`.  Returns the `(MoveResult, message)` pair
together with the (possibly updated) engine state.  The Python nested
`if is_player_turn and idx < len: if uci != expected: return WRONG_MOVE`
is flattened into one conjunction guarding the same early return. -/
def ChessLogic.play_move {B : Type} (R : ChessRules B) (L : ChessLogic B)
    (move_str : String) : (MoveResult × String) × ChessLogic B :=
  match L.game_state with
  | none => ((MoveResult.INVALID_MOVE, "No puzzle initialized"), L)
  | some gs =>
    match resolve_move R gs.board move_str with
    | none =>
      ((MoveResult.INVALID_MOVE,
        "\x27" ++ move_str ++ "\x27 is not a valid move"), L)
    | some mv =>
      if gs.is_player_turn = true ∧
          gs.current_move_index < L.solution_moves.length ∧
          mv ≠ L.solution_moves.getD gs.current_move_index "" then
        ((MoveResult.WRONG_MOVE, "Puzzle expects a different move"), L)
      else
        let san_move := R.san gs.board mv
        let board2 := R.push gs.board mv
        let moves2 := gs.moves_uci ++ [mv]
        let idx2 := if gs.is_player_turn then gs.current_move_index + 1
                    else gs.current_move_index
        let turn2 := !gs.is_player_turn
        -- `if self.state_manager and self.puzzle_id:` (an empty string
        -- puzzle_id is falsy in Python and skips the notification)
        let sm2 : Option StateManager :=
          match L.state_manager, L.puzzle_id with
          | some sm, some pid =>
            if pid = "" then some sm
            else
              let r := sm.create_state pid moves2 none
              some (r.2.set_current_state r.1)
          | osm, _ => osm
        if L.solution_moves.length ≤ idx2 ∨ R.is_checkmate board2 = true ∨
            R.is_stalemate board2 = true then
          ((MoveResult.PUZZLE_SOLVED, "Puzzle solved with " ++ san_move ++ "!"),
           { L with
             game_state := some ⟨board2, moves2, idx2, turn2, true⟩
             state_manager := sm2 })
        else
          ((MoveResult.SUCCESS, san_move),
           { L with
             game_state := some ⟨board2, moves2, idx2, turn2, gs.puzzle_solved⟩
             state_manager := sm2 })

/-- The loop body of `ChessLogic.play_move_tree`.  The third argument
accumulates the collected messages and the fourth mirrors the Python local
variable `result`; for a non-empty move list it is overwritten before it can
be returned. -/
def ChessLogic.play_move_tree_go {B : Type} (R : ChessRules B) :
    ChessLogic B → List String → List String → MoveResult →
    (MoveResult × List String) × ChessLogic B
  | L, [], acc, last => ((last, acc), L)
  | L, move_str :: rest, acc, _ =>
    let r1 := L.play_move R move_str
    let result := r1.1.1
    let L1 := r1.2
    let acc1 := acc ++ [r1.1.2]
    if result = MoveResult.INVALID_MOVE ∨ result = MoveResult.PUZZLE_SOLVED then
      ((result, acc1), L1)
    else
      -- `result == SUCCESS and not game_state.is_player_turn and cursor < len`
      -- (Python's `and` short-circuits, so `game_state` is only read when the
      -- result is SUCCESS, in which case it is always set)
      match L1.game_state with
      | some gs =>
        if result = MoveResult.SUCCESS ∧ gs.is_player_turn = false ∧
            gs.current_move_index < L1.solution_moves.length then
          let opponent_move :=
            L1.solution_moves.getD gs.current_move_index ""
          let r2 := L1.play_move R opponent_move
          let L2 := r2.2
          let acc2 := acc1 ++ ["Opponent: " ++ r2.1.2]
          if r2.1.1 = MoveResult.PUZZLE_SOLVED then
            ((MoveResult.PUZZLE_SOLVED, acc2), L2)
          else ChessLogic.play_move_tree_go R L2 rest acc2 result
        else ChessLogic.play_move_tree_go R L1 rest acc1 result
      | none => ChessLogic.play_move_tree_go R L1 rest acc1 result

/-- Embeds `ChessLogic.play_move_tree`.  The Python local `result` is
assigned only inside the `for` loop but returned unconditionally, so a call
with an empty move list raises `UnboundLocalError`; that raise is modelled
by `none`.  (The initial `MoveResult.SUCCESS` accumulator below is dead for
every non-empty input.) -/
def ChessLogic.play_move_tree {B : Type} (R : ChessRules B) (L : ChessLogic B)
    (moves : List String) :
    Option ((MoveResult × List String) × ChessLogic B) :=
  match moves with
  | [] => none
  | m :: ms =>
    some (ChessLogic.play_move_tree_go R L (m :: ms) [] MoveResult.SUCCESS)

/-- Embeds the `while moves_popped < count and board.move_stack:` loop of
`ChessLogic.rollback_moves`: pops the board and drops the last history entry
until `count` plies are removed or the board's move stack is empty.  Returns
the new board, the new history, and the number of plies actually popped.
(The board's move stack and `moves_uci` always have equal length in states
the engine produces, so `moves_uci.pop()` cannot fail there.) -/
def popStack {B : Type} (R : ChessRules B) :
    Nat → B → List String → B × List String × Nat
  | 0, b, ms => (b, ms, 0)
  | Nat.succ k, b, ms =>
    if R.has_move_stack b then
      let r := popStack R k (R.pop b) ms.dropLast
      (r.1, r.2.1, r.2.2 + 1)
    else (b, ms, 0)

/-- Embeds `ChessLogic.rollback_moves`: no-op returning `false` when no
puzzle is loaded or `count <= 0`; otherwise pops up to `count` plies, sets
`current_move_index = max(0, idx - popped)` (Python `max`; here `Nat`
subtraction), recomputes `is_player_turn` from the new length's parity,
clears `puzzle_solved`, and returns whether anything was popped. -/
def ChessLogic.rollback_moves {B : Type} (R : ChessRules B) (L : ChessLogic B)
    (count : Int) : Bool × ChessLogic B :=
  match L.game_state with
  | none => (false, L)
  | some gs =>
    if count ≤ 0 then (false, L)
    else
      let r := popStack R count.toNat gs.board gs.moves_uci
      let gs2 : GameState B :=
        ⟨r.1, r.2.1, gs.current_move_index - r.2.2,
         r.2.1.length % 2 == 0, false⟩
      (decide (0 < r.2.2), { L with game_state := some gs2 })

/-- Embeds the loop of `ChessLogic._replay_moves_on_board`: pushes
`chess.Move.from_uci(m)` for each stored move.  `none` models the uncaught
parse error on a malformed UCI string; `push` itself performs no legality
check (python-chess documented behaviour), so chess-illegal but well-formed
moves are replayed silently. -/
def replay_go {B : Type} (R : ChessRules B) (b : B) :
    List String → Option B
  | [] => some b
  | m :: ms =>
    match R.from_uci m with
    | some mv => replay_go R (R.push b mv) ms
    | none => none

/-- Embeds `ChessLogic._replay_moves_on_board`. -/
def ChessLogic.replay_moves_on_board {B : Type} (R : ChessRules B)
    (initial_fen : String) (moves_uci : List String) : Option B :=
  replay_go R (R.mkBoard initial_fen) moves_uci

/-- Embeds `ChessLogic.load_from_state`: replays the stored history on a
fresh board (`none` when the replay raises), then sets the cursor to the
history length, `is_player_turn` to the length's evenness, and
`puzzle_solved` to its dataclass default `False`. -/
def ChessLogic.load_from_state {B : Type} (R : ChessRules B)
    (L : ChessLogic B) (ps : PuzzleState) (initial_fen : String)
    (sol : List String) : Option (ChessLogic B) :=
  match ChessLogic.replay_moves_on_board R initial_fen ps.moves_uci with
  | none => none
  | some b =>
    some { L with
      puzzle_id := some ps.puzzle_id
      solution_moves := sol
      game_state := some
        ⟨b, ps.moves_uci, ps.moves_uci.length,
         ps.moves_uci.length % 2 == 0, false⟩ }

/-- Folds `play_move` over a list of input moves, discarding the per-move
results: the session state reached by a sequence of `play_move` calls. -/
def ChessLogic.play_all {B : Type} (R : ChessRules B) (L : ChessLogic B)
    (moves : List String) : ChessLogic B :=
  moves.foldl (fun acc m => (acc.play_move R m).2) L

/-- The turn-alternation invariant: whenever a puzzle is loaded,
`is_player_turn` equals `(len(move_history) % 2 == 0)`. -/
def turn_matches_parity {B : Type} (L : ChessLogic B) : Bool :=
  match L.game_state with
  | some gs => gs.is_player_turn == (gs.moves_uci.length % 2 == 0)
  | none => true

/-- The move history of the live session (empty when uninitialized). -/
def ChessLogic.historyOf {B : Type} (L : ChessLogic B) : List String :=
  match L.game_state with
  | some gs => gs.moves_uci
  | none => []

/-- The solution cursor of the live session (0 when uninitialized). -/
def ChessLogic.cursorOf {B : Type} (L : ChessLogic B) : Nat :=
  match L.game_state with
  | some gs => gs.current_move_index
  | none => 0

/-- `is_player_turn` of the live session (`true` when uninitialized). -/
def ChessLogic.turnOf {B : Type} (L : ChessLogic B) : Bool :=
  match L.game_state with
  | some gs => gs.is_player_turn
  | none => true

/-- `puzzle_solved` of the live session (`false` when uninitialized). -/
def ChessLogic.solvedOf {B : Type} (L : ChessLogic B) : Bool :=
  match L.game_state with
  | some gs => gs.puzzle_solved
  | none => false

/-- A concrete instance of the chess capability used to evaluate the engine
on closed inputs: the board is the list of pushed UCI moves, SAN parsing
always fails (so resolution takes the UCI branch), every well-formed move is
accepted as legal, SAN rendering is the identity, and no position is ever
checkmate or stalemate. -/
def permissiveRules : ChessRules (List String) where
  mkBoard := fun _ => []
  parse_san := fun _ _ => none
  from_uci := fun s => some s
  is_legal := fun _ _ => true
  push := fun b m => b ++ [m]
  san := fun _ m => m
  is_checkmate := fun _ => false
  is_stalemate := fun _ => false
  pop := fun b => b.dropLast
  has_move_stack := fun b => !b.isEmpty

/-- Like `permissiveRules`, except the UCI parser rejects the string
`"g6h5"` (modelling a scripted reply that fails to parse on replay). -/
def strictUciRules : ChessRules (List String) :=
  { permissiveRules with
    from_uci := fun s => if s = "g6h5" then none else some s }

/-- Like `permissiveRules`, except the move `"e2e5"` is never legal, while
it still parses and pushes fine — mirroring python-chess, where
`Move.from_uci("e2e5")` parses and `Board.push` applies it unchecked even
though it is chess-illegal from the initial position. -/
def inertLegalityRules : ChessRules (List String) :=
  { permissiveRules with
    is_legal := fun _ m => !(m == "e2e5") }

/-- An empty state store. -/
def emptySM : StateManager := ⟨[], none⟩

/-- Scenario C session: `initialize("p1", start, ["d1h5","g6h5"])` with a
store attached, over `permissiveRules`. -/
def session1 : ChessLogic (List String) :=
  ChessLogic.init_puzzle permissiveRules (mkChessLogic (some emptySM))
    "p1" "fen" ["d1h5", "g6h5"]

/-- Scenario C session over `strictUciRules`, where the scripted reply
`"g6h5"` fails to parse. -/
def session2 : ChessLogic (List String) :=
  ChessLogic.init_puzzle strictUciRules (mkChessLogic none)
    "p1" "fen" ["d1h5", "g6h5"]

/-- A one-ply puzzle session with a store attached. -/
def session3 : ChessLogic (List String) :=
  ChessLogic.init_puzzle permissiveRules (mkChessLogic (some emptySM))
    "p" "fen" ["a"]

/-- A session whose live game state is already solved (as produced by a
`PUZZLE_SOLVED` return: cursor at the end of the one-move solution). -/
def solvedSession : ChessLogic (List String) :=
  ⟨some ⟨["a"], ["a"], 1, false, true⟩, ["a"], none, some "p"⟩

/-- The session produced by a successful `load_from_state` in the witness
for the resume specification. -/
def loadedSession : ChessLogic (List String) :=
  ⟨some ⟨["e2e4"], ["e2e4"], 1, false, false⟩, ["x"], none, some "p"⟩

/-- A four-ply solution session used for the rollback round-trip run. -/
def session5 : ChessLogic (List String) :=
  ChessLogic.init_puzzle permissiveRules (mkChessLogic none)
    "p" "fen" ["a", "b", "c", "d"]

/-- `session5` after `play_move("a")` (the scripted player move). -/
def session5a : ChessLogic (List String) :=
  (session5.play_move permissiveRules "a").2

/-- `session5a` after `play_move("x")` (an off-script opponent ply, which
`play_move` applies unchecked because it is not the player's turn). -/
def session5b : ChessLogic (List String) :=
  (session5a.play_move permissiveRules "x").2

/-- `session5b` after `play_move("b")` (the next scripted player move). -/
def session5c : ChessLogic (List String) :=
  (session5b.play_move permissiveRules "b").2

/-- `session5c` after `rollback(2)`. -/
def session5r : ChessLogic (List String) :=
  (session5c.rollback_moves permissiveRules 2).2

/-- `session5r` after re-applying `"x"`, the first removed move. -/
def session5s : ChessLogic (List String) :=
  (session5r.play_move permissiveRules "x").2

/-- Claim C1 (evaluation at the failing input).  Scenario C on the code:
`initialize("p1", start, ["d1h5","g6h5"])` then `play_sequence(["d1h5"])`
does auto-play `"g6h5"` and does return two messages, but the final outcome
is `SUCCESS`, not `PUZZLE_SOLVED`, and the cursor ends at 1 while the
history has length 2: `current_move_index` is only incremented on player
plies, so it does not count the auto-played opponent ply — contradicting
both the claimed cursor/history equality and the claimed outcome. -/
theorem scenarioC_cursor_run :
    (session1.play_move_tree permissiveRules ["d1h5"]).map
      (fun r => (r.1.1, r.1.2, r.2.historyOf, r.2.cursorOf, r.2.solvedOf))
    = some (MoveResult.SUCCESS, ["d1h5", "Opponent: g6h5"],
        ["d1h5", "g6h5"], 1, false) := by
  rfl

/-- Claim C5 (evaluation at the failing input).  Session: solution
`["a","b","c","d"]`; the player plays `"a"` (scripted), the opponent ply
`"x"` is entered off-script (unchecked), the player plays `"b"` (scripted,
cursor 1).  `rollback(2)` then removes `["x","b"]` and decrements the
cursor by 2 although only one of the removed plies had advanced it.
Re-applying the removed moves `"x"` then `"b"` does not restore the
session: `"b"` is rejected as `WRONG_MOVE` (the cursor now expects
`solution[0] = "a"`), leaving history `["a","x"]` and `is_player_turn`
`true`, while the original session had `["a","x","b"]` and `false`. -/
theorem rollback_replay_divergence_run :
    (session5.play_move permissiveRules "a").1.1 = MoveResult.SUCCESS ∧
    (session5a.play_move permissiveRules "x").1.1 = MoveResult.SUCCESS ∧
    (session5b.play_move permissiveRules "b").1.1 = MoveResult.SUCCESS ∧
    session5c.historyOf = ["a", "x", "b"] ∧
    session5c.turnOf = false ∧
    (session5c.rollback_moves permissiveRules 2).1 = true ∧
    session5r.historyOf = ["a"] ∧
    session5r.cursorOf = 0 ∧
    (session5r.play_move permissiveRules "x").1.1 = MoveResult.SUCCESS ∧
    (session5s.play_move permissiveRules "b").1.1 = MoveResult.WRONG_MOVE ∧
    (session5s.play_move permissiveRules "b").2.historyOf = ["a", "x"] ∧
    (session5s.play_move permissiveRules "b").2.turnOf = true := by
  refine ⟨rfl, rfl, rfl, rfl, rfl, rfl, rfl, rfl, rfl, rfl, rfl, rfl⟩

/-- Claim C2 (counterexample).  With a scripted reply that fails to parse,
the auto-played opponent move returns `INVALID_MOVE`, yet `play_move_tree`
does not stop with that outcome: the loop only breaks on `PUZZLE_SOLVED`
from the auto-played move, so the final outcome is the player's `SUCCESS`
even though an applied move returned `INVALID_MOVE`. -/
theorem tree_continues_after_auto_invalid :
    (session2.play_move strictUciRules "d1h5").1.1 = MoveResult.SUCCESS ∧
    (session2.play_move strictUciRules "d1h5").2.cursorOf = 1 ∧
    ((session2.play_move strictUciRules "d1h5").2.play_move strictUciRules
        "g6h5").1.1 = MoveResult.INVALID_MOVE ∧
    (session2.play_move_tree strictUciRules ["d1h5"]).map
        (fun r => (r.1.1, r.1.2))
      = some (MoveResult.SUCCESS,
          ["d1h5", "Opponent: \x27g6h5\x27 is not a valid move"]) := by
  refine ⟨rfl, rfl, rfl, rfl⟩

/-- Claim C3 (counterexample).  After `play_move("a")` returns
`PUZZLE_SOLVED` on the one-move puzzle, a further `play_move("b")` (with no
intervening `initialize`/`resume`/`rollback`) mutates the session: the
history grows from `["a"]` to `["a","b"]` and the store gains a new state
(count 1 to 2) — `play_move` never consults the solved flag. -/
theorem play_after_solved_mutates :
    (session3.play_move permissiveRules "a").1.1 = MoveResult.PUZZLE_SOLVED ∧
    (session3.play_move permissiveRules "a").2.solvedOf = true ∧
    (session3.play_move permissiveRules "a").2.historyOf = ["a"] ∧
    ((session3.play_move permissiveRules "a").2.state_manager.map
        StateManager.get_state_count) = some 1 ∧
    ((session3.play_move permissiveRules "a").2.play_move permissiveRules
        "b").2.historyOf = ["a", "b"] ∧
    (((session3.play_move permissiveRules "a").2.play_move permissiveRules
        "b").2.state_manager.map StateManager.get_state_count) = some 2 := by
  refine ⟨rfl, rfl, rfl, rfl, rfl, rfl⟩

/-- Claim C4 (counterexample).  The stored move `"e2e5"` is not legal on
the board it is replayed onto (`is_legal` rejects it, mirroring the
chess-illegal `e2e5` from the initial position, which python-chess
`Move.from_uci` parses and `Board.push` applies unchecked), yet
`load_from_state` succeeds instead of failing: the replay performs no
legality check.  The success fields are still set as described. -/
theorem load_from_state_accepts_illegal_replay :
    inertLegalityRules.is_legal (inertLegalityRules.mkBoard "fen") "e2e5"
      = false ∧
    (ChessLogic.load_from_state inertLegalityRules (mkChessLogic none)
        ⟨"p", ["e2e5"], none⟩ "fen" ["d2d4"]).map
      (fun L => (L.historyOf, L.cursorOf, L.turnOf, L.solvedOf))
      = some (["e2e5"], 1, false, false) := by
  refine ⟨rfl, rfl⟩

/-- Claim C10: `play_move_tree` is only total on non-empty input.  The
Python local `result` is assigned only inside the per-move loop but is
returned unconditionally, so on an empty move list the call raises
`UnboundLocalError` (modelled by `none`), while every non-empty move list
yields an `(outcome, messages)` pair. -/
theorem play_move_tree_empty_input {B : Type} (R : ChessRules B)
    (L : ChessLogic B) (_h : L.game_state.isSome = true) :
    L.play_move_tree R [] = none ∧
    ∀ m ms, (L.play_move_tree R (m :: ms)).isSome = true := by
  exact ⟨rfl, fun m ms => rfl⟩

/-- Witness for C10: the claim theorem applied to the initialized Scenario C
session. -/
theorem play_move_tree_empty_input_witness :
    session1.game_state.isSome = true ∧
    session1.play_move_tree permissiveRules [] = none :=
  ⟨rfl, (play_move_tree_empty_input permissiveRules session1 rfl).1⟩

/-- Claim C8: `play_move` error atomicity.  (1) With no puzzle loaded it
returns `INVALID_MOVE` with the "No puzzle initialized" message and the
whole state (store included) unchanged.  (2) When the move string resolves
in neither notation (or the resolved move is illegal), it returns
`INVALID_MOVE` with a diagnostic message and the state unchanged.  (3) When
the move resolves but differs from `solution[cursor]` on the player's turn
with the cursor short of the end, it returns `WRONG_MOVE` and the state is
unchanged. -/
theorem play_move_error_atomic {B : Type} (R : ChessRules B)
    (L : ChessLogic B) (m : String) :
    (L.game_state = none →
      L.play_move R m
        = ((MoveResult.INVALID_MOVE, "No puzzle initialized"), L)) ∧
    (∀ gs, L.game_state = some gs → resolve_move R gs.board m = none →
      L.play_move R m
        = ((MoveResult.INVALID_MOVE,
            "\x27" ++ m ++ "\x27 is not a valid move"), L)) ∧
    (∀ gs mv, L.game_state = some gs → resolve_move R gs.board m = some mv →
      gs.is_player_turn = true →
      gs.current_move_index < L.solution_moves.length →
      mv ≠ L.solution_moves.getD gs.current_move_index "" →
      L.play_move R m
        = ((MoveResult.WRONG_MOVE, "Puzzle expects a different move"), L)) := by
  refine ⟨?_, ?_, ?_⟩
  · intro h
    simp [ChessLogic.play_move, h]
  · intro gs hgs hr
    simp [ChessLogic.play_move, hgs, hr]
  · intro gs mv hgs hr ht hi hm
    rw [List.getD_eq_getElem _ _ hi] at hm
    simp [ChessLogic.play_move, hgs, hr, ht, hi, hm]

/-- Witness for C8: the three error cases evaluated on concrete sessions —
an uninitialized engine, an unparsable scripted string, and a legal but
off-script player move. -/
theorem play_move_error_atomic_witness :
    (ChessLogic.play_move permissiveRules
        (mkChessLogic none : ChessLogic (List String)) "e2e4"
      = ((MoveResult.INVALID_MOVE, "No puzzle initialized"),
          mkChessLogic none)) ∧
    (session2.play_move strictUciRules "g6h5"
      = ((MoveResult.INVALID_MOVE, "\x27g6h5\x27 is not a valid move"),
          session2)) ∧
    (session5.play_move permissiveRules "z"
      = ((MoveResult.WRONG_MOVE, "Puzzle expects a different move"),
          session5)) := by
  refine ⟨(play_move_error_atomic permissiveRules (mkChessLogic none)
      "e2e4").1 rfl, ?_, ?_⟩
  · exact (play_move_error_atomic strictUciRules session2 "g6h5").2.1 _ rfl rfl
  · exact (play_move_error_atomic permissiveRules session5 "z").2.2 _ "z" rfl
      rfl rfl (by decide) (by decide)

/-- The state returned by `create_state` is the newly constructed one. -/
theorem create_state_fst (sm : StateManager) (p : String) (m : List String)
    (ref : Option Int) : (sm.create_state p m ref).1 = ⟨p, m, ref⟩ := by
  simp only [StateManager.create_state]
  split <;> rfl

/-- When a `pyEq`-equal state is already stored, `create_state` leaves the
store untouched. -/
theorem create_state_snd_mem (sm : StateManager) (p : String)
    (m : List String) (ref : Option Int)
    (h : sm.states.any (fun s => s.pyEq ⟨p, m, ref⟩) = true) :
    (sm.create_state p m ref).2 = sm := by
  simp only [StateManager.create_state]
  simp only [h, if_true]

/-- When no `pyEq`-equal state is stored, `create_state` appends the newly
constructed state. -/
theorem create_state_snd_new (sm : StateManager) (p : String)
    (m : List String) (ref : Option Int)
    (h : sm.states.any (fun s => s.pyEq ⟨p, m, ref⟩) = false) :
    (sm.create_state p m ref).2.states = sm.states ++ [⟨p, m, ref⟩] := by
  simp only [StateManager.create_state]
  simp only [h, Bool.false_eq_true, if_false]

/-- Claim C6: `create_state` returns the canonical stored state for the
identity `(puzzle_id, move_history)`.  The returned value always carries
that identity; when no state with the identity is present, the constructed
state (with the given `message_ref`) is inserted at the end of the store;
when one is present, the store is left entirely unchanged — so the
previously stored `message_ref` is retained and a later call with a
different `message_ref` does not mutate the stored value — and every stored
state with that identity remains stored and is equal (under the
`message_ref`-ignoring identity equality `pyEq`) to the returned value. -/
theorem create_state_canonical (sm : StateManager) (p : String)
    (m : List String) (ref : Option Int) :
    (sm.create_state p m ref).1 = ⟨p, m, ref⟩ ∧
    (sm.states.any (fun s => s.pyEq ⟨p, m, ref⟩) = false →
      (sm.create_state p m ref).2.states = sm.states ++ [⟨p, m, ref⟩]) ∧
    (sm.states.any (fun s => s.pyEq ⟨p, m, ref⟩) = true →
      (sm.create_state p m ref).2.states = sm.states) ∧
    (∀ s, s ∈ sm.states → s.pyEq ⟨p, m, ref⟩ = true →
      s ∈ (sm.create_state p m ref).2.states ∧
      s.pyEq (sm.create_state p m ref).1 = true) := by
  refine ⟨create_state_fst sm p m ref, ?_, ?_, ?_⟩
  · intro h
    exact create_state_snd_new sm p m ref h
  · intro h
    rw [create_state_snd_mem sm p m ref h]
  · intro s hs hpy
    constructor
    · rcases Bool.eq_false_or_eq_true
        (sm.states.any (fun t => t.pyEq ⟨p, m, ref⟩)) with h | h
      · rw [create_state_snd_mem sm p m ref h]
        exact hs
      · rw [create_state_snd_new sm p m ref h]
        exact List.mem_append_left _ hs
    · rw [create_state_fst sm p m ref]
      exact hpy

/-- Witness for C6: the claim theorem applied to a store already holding
the identity `("p", ["e2e4"])` with `message_ref = some 7`; a call with
`message_ref = some 9` leaves the store unchanged and returns a state
`pyEq`-equal to the stored one. -/
theorem create_state_canonical_witness :
    ((⟨[⟨"p", ["e2e4"], some 7⟩], none⟩ : StateManager).states.any
        (fun s => s.pyEq ⟨"p", ["e2e4"], some 9⟩) = true) ∧
    ((⟨[⟨"p", ["e2e4"], some 7⟩], none⟩ : StateManager).create_state
        "p" ["e2e4"] (some 9)).2.states = [⟨"p", ["e2e4"], some 7⟩] := by
  refine ⟨by decide, ?_⟩
  have h := (create_state_canonical ⟨[⟨"p", ["e2e4"], some 7⟩], none⟩
    "p" ["e2e4"] (some 9)).2.2.1 (by decide)
  simpa using h

/-- Claim C7: deduplication idempotence.  A repeated `create_state` with the
same `(puzzle_id, move_history)` and any different `message_ref` returns a
value `pyEq`-equal (the Python `==`) to the first call's value, and neither
the state set nor `count()` changes on the repeated call. -/
theorem create_state_dedup_idempotent (sm : StateManager) (p : String)
    (m : List String) (ref1 ref2 : Option Int) (_h : ref1 ≠ ref2) :
    ((sm.create_state p m ref1).1).pyEq
        (((sm.create_state p m ref1).2).create_state p m ref2).1 = true ∧
    (((sm.create_state p m ref1).2).create_state p m ref2).2.states
        = ((sm.create_state p m ref1).2).states ∧
    (((sm.create_state p m ref1).2).create_state p m ref2).2.get_state_count
        = ((sm.create_state p m ref1).2).get_state_count := by
  have hpy : ∀ s : PuzzleState,
      s.pyEq ⟨p, m, ref1⟩ = s.pyEq ⟨p, m, ref2⟩ := fun s => rfl
  have hmem : ((sm.create_state p m ref1).2).states.any
      (fun s => s.pyEq ⟨p, m, ref2⟩) = true := by
    rcases Bool.eq_false_or_eq_true
      (sm.states.any (fun t => t.pyEq ⟨p, m, ref1⟩)) with h1 | h1
    · rw [create_state_snd_mem sm p m ref1 h1]
      simp only [← hpy]
      exact h1
    · rw [create_state_snd_new sm p m ref1 h1, List.any_append]
      simp [PuzzleState.pyEq]
  have hsnd := create_state_snd_mem ((sm.create_state p m ref1).2)
    p m ref2 hmem
  refine ⟨?_, ?_, ?_⟩
  · rw [create_state_fst, create_state_fst]
    simp [PuzzleState.pyEq]
  · rw [hsnd]
  · rw [hsnd]

/-- Witness for C7: the claim theorem applied to the empty store with
identity `("p", ["e2e4"])` and refs `none` and `some 1`. -/
theorem create_state_dedup_idempotent_witness :
    ((emptySM.create_state "p" ["e2e4"] none).1).pyEq
        (((emptySM.create_state "p" ["e2e4"] none).2).create_state
          "p" ["e2e4"] (some 1)).1 = true ∧
    (((emptySM.create_state "p" ["e2e4"] none).2).create_state
        "p" ["e2e4"] (some 1)).2.get_state_count = 1 := by
  have h := create_state_dedup_idempotent emptySM "p" ["e2e4"] none (some 1)
    (by decide)
  exact ⟨h.1, by rw [h.2.2]; rfl⟩

/-- Claim C2 (amended): `play_move_tree` stops immediately — independently
of the remaining input moves — when one of the caller's moves returns
`INVALID_MOVE` or `PUZZLE_SOLVED`, or when the auto-played scripted reply
returns `PUZZLE_SOLVED`, and the outcome of that stopping move is the final
outcome, together with all messages collected so far.  (An auto-played
reply returning `INVALID_MOVE` does not stop the sequence and does not
become the final outcome; see the counterexample.) -/
theorem play_move_tree_stop_conditions {B : Type} (R : ChessRules B)
    (L : ChessLogic B) (m : String) (rest : List String) :
    (∀ msg L1, L.play_move R m = ((MoveResult.INVALID_MOVE, msg), L1) →
      L.play_move_tree R (m :: rest)
        = some ((MoveResult.INVALID_MOVE, [msg]), L1)) ∧
    (∀ msg L1, L.play_move R m = ((MoveResult.PUZZLE_SOLVED, msg), L1) →
      L.play_move_tree R (m :: rest)
        = some ((MoveResult.PUZZLE_SOLVED, [msg]), L1)) ∧
    (∀ msg L1 gs omsg L2,
      L.play_move R m = ((MoveResult.SUCCESS, msg), L1) →
      L1.game_state = some gs →
      gs.is_player_turn = false →
      gs.current_move_index < L1.solution_moves.length →
      L1.play_move R (L1.solution_moves.getD gs.current_move_index "")
        = ((MoveResult.PUZZLE_SOLVED, omsg), L2) →
      L.play_move_tree R (m :: rest)
        = some ((MoveResult.PUZZLE_SOLVED,
            [msg, "Opponent: " ++ omsg]), L2)) := by
  refine ⟨?_, ?_, ?_⟩
  · intro msg L1 h
    simp [ChessLogic.play_move_tree, ChessLogic.play_move_tree_go, h]
  · intro msg L1 h
    simp [ChessLogic.play_move_tree, ChessLogic.play_move_tree_go, h]
  · intro msg L1 gs omsg L2 h hgs ht hi hopp
    rw [List.getD_eq_getElem _ _ hi] at hopp
    simp [ChessLogic.play_move_tree, ChessLogic.play_move_tree_go,
      h, hgs, ht, hi, hopp]

/-- Witness for the C2 amended theorem: the first stop condition applied
to an uninitialized engine, whose first move returns `INVALID_MOVE`, so the
sequence stops with that outcome and one message regardless of the pending
second move. -/
theorem play_move_tree_stop_conditions_witness :
    ChessLogic.play_move_tree permissiveRules
        (mkChessLogic none : ChessLogic (List String)) ["q2q4", "r2r4"]
      = some ((MoveResult.INVALID_MOVE, ["No puzzle initialized"]),
          mkChessLogic none) :=
  (play_move_tree_stop_conditions permissiveRules (mkChessLogic none)
    "q2q4" ["r2r4"]).1 "No puzzle initialized" (mkChessLogic none) rfl

/-- Claim C3 (amended): `play_move` never consults the solved flag.  On a
session whose live game state is already solved, a call whose move string
fails to resolve leaves the whole state unchanged, but a call whose move
resolves (and is not rejected by the wrong-move check) is applied exactly as
before the solve: the move is appended to the history (and the solved flag
remains set).  The solved state is therefore not terminal. -/
theorem play_move_ignores_solved_flag {B : Type} (R : ChessRules B)
    (L : ChessLogic B) (gs : GameState B) (m : String)
    (hgs : L.game_state = some gs) (hsolved : gs.puzzle_solved = true) :
    (resolve_move R gs.board m = none → (L.play_move R m).2 = L) ∧
    (∀ mv, resolve_move R gs.board m = some mv →
      ¬(gs.is_player_turn = true ∧
          gs.current_move_index < L.solution_moves.length ∧
          mv ≠ L.solution_moves.getD gs.current_move_index "") →
      (L.play_move R m).2.historyOf = gs.moves_uci ++ [mv] ∧
      (L.play_move R m).2.solvedOf = true) := by
  constructor
  · intro h
    simp [ChessLogic.play_move, hgs, h]
  · intro mv hr hcond
    simp only [ChessLogic.play_move, hgs, hr]
    rw [if_neg hcond]
    constructor
    · split <;> split <;> simp [ChessLogic.historyOf]
    · split <;> split <;> simp [ChessLogic.solvedOf, hsolved]

/-- Witness for the C3 amended theorem: applied to `solvedSession` (solved
flag set, cursor at the end) and the resolving move `"b"`, which is applied
and extends the history. -/
theorem play_move_ignores_solved_flag_witness :
    solvedSession.solvedOf = true ∧
    (solvedSession.play_move permissiveRules "b").2.historyOf = ["a", "b"] ∧
    (solvedSession.play_move permissiveRules "b").2.solvedOf = true := by
  have h := (play_move_ignores_solved_flag permissiveRules solvedSession
    ⟨["a"], ["a"], 1, false, true⟩ "b" rfl rfl).2 "b" rfl (by decide)
  exact ⟨rfl, h.1, h.2⟩

/-- The replay loop succeeds exactly when every stored move passes the
syntactic UCI parse; no legality check is involved. -/
theorem replay_go_isSome_iff {B : Type} (R : ChessRules B)
    (ms : List String) : ∀ b : B,
    (replay_go R b ms).isSome = true ↔
      ∀ m ∈ ms, (R.from_uci m).isSome = true := by
  induction ms with
  | nil =>
    intro b
    simp [replay_go]
  | cons m ms ih =>
    intro b
    cases hu : R.from_uci m with
    | none => simp [replay_go, hu]
    | some mv => simp [replay_go, hu, ih]

/-- Claim C4 (amended): `load_from_state` replays the stored history by
UCI-parsing and pushing each move with **no** legality check: it succeeds
if and only if every stored move is syntactically well-formed UCI (a
chess-illegal but parseable stored move is replayed silently; the failure
on a malformed move is an uncaught parse error — the spec's
`CorruptHistory`).  On success it sets the history to the stored one, the
cursor to the history length, `is_player_turn` to (history length is even),
and `solved` to false. -/
theorem load_from_state_replay_spec {B : Type} (R : ChessRules B)
    (L : ChessLogic B) (ps : PuzzleState) (fen : String)
    (sol : List String) :
    ((ChessLogic.load_from_state R L ps fen sol).isSome = true ↔
      ∀ m ∈ ps.moves_uci, (R.from_uci m).isSome = true) ∧
    (∀ L', ChessLogic.load_from_state R L ps fen sol = some L' →
      L'.historyOf = ps.moves_uci ∧
      L'.cursorOf = ps.moves_uci.length ∧
      L'.turnOf = (ps.moves_uci.length % 2 == 0) ∧
      L'.solvedOf = false ∧
      L'.puzzle_id = some ps.puzzle_id ∧
      L'.solution_moves = sol) := by
  constructor
  · rw [← replay_go_isSome_iff R ps.moves_uci (R.mkBoard fen)]
    unfold ChessLogic.load_from_state ChessLogic.replay_moves_on_board
    cases replay_go R (R.mkBoard fen) ps.moves_uci <;> simp
  · intro L' hL
    unfold ChessLogic.load_from_state ChessLogic.replay_moves_on_board at hL
    cases hrep : replay_go R (R.mkBoard fen) ps.moves_uci with
    | none =>
      rw [hrep] at hL
      exact absurd hL (by simp)
    | some b =>
      rw [hrep] at hL
      simp only [Option.some.injEq] at hL
      subst hL
      simp [ChessLogic.historyOf, ChessLogic.cursorOf, ChessLogic.turnOf,
        ChessLogic.solvedOf]

/-- Witness for the C4 amended theorem: resuming the well-formed history
`["e2e4"]` succeeds and produces `loadedSession` with cursor 1, opponent to
move, and the solved flag cleared. -/
theorem load_from_state_replay_spec_witness :
    ChessLogic.load_from_state permissiveRules
        (mkChessLogic none : ChessLogic (List String))
        ⟨"p", ["e2e4"], none⟩ "f" ["x"] = some loadedSession ∧
    loadedSession.historyOf = ["e2e4"] ∧ loadedSession.cursorOf = 1 ∧
    loadedSession.turnOf = false ∧ loadedSession.solvedOf = false := by
  have h := (load_from_state_replay_spec permissiveRules
    (mkChessLogic none) ⟨"p", ["e2e4"], none⟩ "f" ["x"]).2 loadedSession rfl
  exact ⟨rfl, h.1, h.2.1, by simpa using h.2.2.1, h.2.2.2.1⟩

/-- Toggling a boolean that tracks the evenness of `n` yields the evenness
of `n + 1`. -/
theorem parity_flip (t : Bool) (n : Nat) (h : t = (n % 2 == 0)) :
    (!t) = ((n + 1) % 2 == 0) := by
  subst h
  rcases Nat.mod_two_eq_zero_or_one n with h2 | h2 <;>
    simp [Nat.add_mod, h2]

/-- `play_move` preserves the turn-alternation invariant: a failed call
leaves the state unchanged, and a successful one appends one ply and
toggles the turn flag. -/
theorem turn_parity_play_move {B : Type} (R : ChessRules B)
    (L : ChessLogic B) (m : String)
    (h : turn_matches_parity L = true) :
    turn_matches_parity (L.play_move R m).2 = true := by
  cases hgs : L.game_state with
  | none =>
    simp only [ChessLogic.play_move, hgs]
    exact h
  | some gs =>
    have hturn : gs.is_player_turn = (gs.moves_uci.length % 2 == 0) := by
      simpa [turn_matches_parity, hgs] using h
    cases hr : resolve_move R gs.board m with
    | none =>
      simp only [ChessLogic.play_move, hgs, hr]
      exact h
    | some mv =>
      simp only [ChessLogic.play_move, hgs, hr]
      by_cases hw : gs.is_player_turn = true ∧
          gs.current_move_index < L.solution_moves.length ∧
          mv ≠ L.solution_moves.getD gs.current_move_index ""
      · rw [if_pos hw]
        exact h
      · rw [if_neg hw]
        have hflip := parity_flip gs.is_player_turn gs.moves_uci.length hturn
        split <;> split <;>
          simp [turn_matches_parity, List.length_append, hflip]

/-- `rollback_moves` preserves (indeed re-establishes) the turn-alternation
invariant: on any actual rollback it recomputes `is_player_turn` directly
from the new history length's parity. -/
theorem turn_parity_rollback {B : Type} (R : ChessRules B)
    (L : ChessLogic B) (c : Int)
    (h : turn_matches_parity L = true) :
    turn_matches_parity (L.rollback_moves R c).2 = true := by
  cases hgs : L.game_state with
  | none =>
    simp only [ChessLogic.rollback_moves, hgs]
    exact h
  | some gs =>
    simp only [ChessLogic.rollback_moves, hgs]
    split
    · exact h
    · simp [turn_matches_parity]

/-- The turn-alternation invariant is preserved by any sequence of
`play_move` calls. -/
theorem turn_parity_play_all {B : Type} (R : ChessRules B)
    (ms : List String) : ∀ L : ChessLogic B,
    turn_matches_parity L = true →
    turn_matches_parity (L.play_all R ms) = true := by
  induction ms with
  | nil =>
    intro L h
    simpa [ChessLogic.play_all] using h
  | cons m ms ih =>
    intro L h
    have h1 := turn_parity_play_move R L m h
    simpa [ChessLogic.play_all] using ih _ h1

/-- Claim C9: turn alternation.  Starting from `init_puzzle`, after any
sequence of `play_move` calls (successful ones append a ply and toggle the
flag; failed ones change nothing), `is_player_turn` equals
`(len(move_history) % 2 == 0)`; and any `rollback_moves` call preserves the
invariant as well (it recomputes the flag from the new length's parity). -/
theorem turn_alternation_invariant {B : Type} (R : ChessRules B)
    (L : ChessLogic B) (pid fen : String) (sol ms : List String) (c : Int) :
    turn_matches_parity
      ((ChessLogic.init_puzzle R L pid fen sol).play_all R ms) = true ∧
    (∀ L' : ChessLogic B, turn_matches_parity L' = true →
      turn_matches_parity (L'.rollback_moves R c).2 = true) := by
  constructor
  · exact turn_parity_play_all R ms _ (by simp [turn_matches_parity,
      ChessLogic.init_puzzle])
  · intro L' h
    exact turn_parity_rollback R L' c h

/-- Witness for C9: the invariant evaluated on a concrete run — initialize,
play the scripted `"a"`, the off-script reply `"x"`, then roll back one
ply. -/
theorem turn_alternation_invariant_witness :
    turn_matches_parity (session5.play_all permissiveRules ["a", "x"])
      = true ∧
    turn_matches_parity
      ((session5.play_all permissiveRules ["a", "x"]).rollback_moves
        permissiveRules 1).2 = true := by
  have h := turn_alternation_invariant permissiveRules
    (mkChessLogic none : ChessLogic (List String)) "p" "fen"
    ["a", "b", "c", "d"] ["a", "x"] 1
  exact ⟨h.1, h.2 _ h.1⟩
